import Mathlib

/-!
Verification development for the deepfake-analyzer repository.

Shallow embedding of the trust-fusion engine (`src/trust_engine/scorer.py`,
`src/trust_engine/score_fusion.py`, `src/trust_engine/failure_modes.py`),
the adversarial robustness tester (`src/trust_engine/adversarial.py`) and the
batch orchestrator (`src/utils/batch_processor.py`, plus the batch endpoint in
`src/app.py`).  Python floats are modelled as rationals; opaque OpenCV/NumPy
pixel computations are modelled as parameters of the definitions; fallible
Python code (exceptions) is modelled with `Option`/`Except`.
-/

namespace Scorer

/-- Result triple of `trust_score` in `src/trust_engine/scorer.py`:
`(trust_score, decision, reason)`. -/
structure TS where
  score : ℚ
  decision : String
  reason : String
deriving Repr, DecidableEq

/-- Signal-level insight strings appended by `trust_score`
(order in the source: temporal, vision, audio). -/
def signalInsights (vision audio temporal : ℚ) : List String :=
  (if temporal < 0.4 then ["high temporal inconsistency"] else []) ++
  (if vision < 0.4 then ["visual artifacts detected"] else []) ++
  (if audio < 0.4 then ["synthetic audio characteristics"] else [])

/-- Quality-tiered core of `trust_score` (lines 23-82 of
`src/trust_engine/scorer.py`): the raw weighted score (weights: vision 0.4,
audio 0.3, temporal 0.3), the dampening tiers and the tier-specific decision
bands. -/
def baseTS (vision audio temporal quality : ℚ) : TS :=
  let raw_score : ℚ := vision * 0.4 + audio * 0.3 + temporal * 0.3
  if quality < 0.3 then
      ⟨raw_score * 0.4, "Ambiguous",
        "Very Low Quality Input - Cannot Make Reliable Assessment"⟩
    else if quality < 0.5 then
      ⟨raw_score * 0.6, "Ambiguous", "Low Quality Input - Limited Confidence"⟩
    else if quality < 0.7 then
      let adjusted := raw_score * 0.85
      if adjusted > 0.65 then
        ⟨adjusted, "Likely Real", "Moderate Quality - Signals Indicate Real Content"⟩
      else if adjusted < 0.35 then
        ⟨adjusted, "Likely Fake", "Moderate Quality - Multiple Suspicious Signals"⟩
      else
        ⟨adjusted, "Ambiguous", "Moderate Quality - Mixed Signals"⟩
    else
      if raw_score > 0.7 then
        ⟨raw_score, "Real", "High Quality Input - Strong Real Signals"⟩
      else if raw_score < 0.3 then
        ⟨raw_score, "Fake", "High Quality Input - Strong Deepfake Signals"⟩
      else if raw_score > 0.55 then
        ⟨raw_score, "Likely Real", "Good Quality - Signals Lean Toward Real"⟩
      else if raw_score < 0.45 then
        ⟨raw_score, "Likely Fake", "Good Quality - Signals Lean Toward Fake"⟩
      else
        ⟨raw_score, "Ambiguous", "Good Quality - Balanced Signals, Cannot Determine"⟩

/-- Insight-appending step of `trust_score` (lines 84-95): a non-empty
insight list is appended to the reason in parentheses. -/
def appendInsights (base : TS) (insights : List String) : TS :=
  if insights.isEmpty then base
  else { base with reason := base.reason ++ " (" ++ String.intercalate ", " insights ++ ")" }

/-- Embedding of `trust_score` from `src/trust_engine/scorer.py` (lines 7-97):
the tiered core followed by the insight-appending step. -/
def trust_score (vision audio temporal quality : ℚ) : TS :=
  appendInsights (baseTS vision audio temporal quality)
    (signalInsights vision audio temporal)

end Scorer

namespace ScoreFusion

/-- Quality dictionary returned by `assess_quality` in
`src/trust_engine/score_fusion.py`: the empty-frames branch returns only the
`overall` key, the main branch also the four sub-metrics. -/
structure QA where
  overall : ℚ
  resolution : Option ℚ
  compression : Option ℚ
  noise : Option ℚ
  blocking : Option ℚ
deriving Repr, DecidableEq

/-- Opaque per-frame measurements used by `assess_quality`
(`frame.shape`, `cv2.Laplacian(...).var()`, `np.std(gray)`, the 8-row blocking
loop); treated as parameters since they are foreign OpenCV/NumPy code. -/
structure FrameMetrics (Frame : Type) where
  widthOf : Frame → ℕ
  heightOf : Frame → ℕ
  laplacian_var : Frame → ℚ
  noise_std : Frame → ℚ
  block_diff : Frame → ℚ

/-- Embedding of `assess_quality` from `src/trust_engine/score_fusion.py`
(lines 9-54).  Empty input returns the bare `overall = 0.5` dictionary. -/
def assess_quality {Frame : Type} (m : FrameMetrics Frame) (frames : List Frame) : QA :=
  match frames with
  | [] => ⟨0.5, none, none, none, none⟩
  | f :: fs =>
    let frame := (f :: fs).getD ((f :: fs).length / 2) f
    let height : ℚ := m.heightOf frame
    let width : ℚ := m.widthOf frame
    let resolution_score := min 1 ((width * height) / (1280 * 720))
    let compression_score := min 1 (m.laplacian_var frame / 500)
    let noise := m.noise_std frame / 255
    let noise_score := 1 - min 1 (noise * 3)
    let blocking_score := 1 - min 1 (m.block_diff frame / (height / 8) / 10)
    let overall := 0.3 * resolution_score + 0.3 * compression_score +
      0.2 * noise_score + 0.2 * blocking_score
    ⟨overall, some resolution_score, some compression_score,
      some noise_score, some blocking_score⟩

/-- Signal dictionary consumed by `generate_report`: each of the three
channels may be missing, in which case `.get(channel, {}).get("score", 0.5)`
yields the 0.5 default. -/
structure Signals where
  vision : Option ℚ
  audio : Option ℚ
  temporal : Option ℚ
deriving Repr, DecidableEq

/-- Report dictionary returned by `generate_report` in
`src/trust_engine/score_fusion.py`. -/
structure Report where
  decision : String
  confidence : String
  reason : String
deriving Repr, DecidableEq

/-- Python `str.capitalize`: first character upper-cased, the rest lower-cased. -/
def pyCapitalize (s : String) : String :=
  match s.data with
  | [] => ""
  | c :: cs => String.mk (c.toUpper :: cs.map Char.toLower)

/-- Embedding of `generate_report` from `src/trust_engine/score_fusion.py`
(lines 93-153).  The decision and confidence depend only on `trust_score`;
the `quality_assessment` argument is not used by the source. -/
def generate_report (t : ℚ) (signals : Signals) (_quality_assessment : QA) : Report :=
  let dc : String × String :=
    if t ≥ 0.7 then ("Likely Real", "high")
    else if t ≥ 0.55 then ("Possibly Real", "medium")
    else if t ≥ 0.45 then ("Ambiguous", "low")
    else if t ≥ 0.3 then ("Possibly Fake", "medium")
    else ("Likely Fake", "high")
  let vision_score := signals.vision.getD 0.5
  let audio_score := signals.audio.getD 0.5
  let temporal_score := signals.temporal.getD 0.5
  let reasons : List String :=
    (if vision_score < 0.4 then ["visual artifacts detected"]
     else if vision_score > 0.7 then ["clean visual quality"] else []) ++
    (if audio_score < 0.4 then ["synthetic audio patterns"]
     else if audio_score > 0.7 then ["natural audio characteristics"] else []) ++
    (if temporal_score < 0.4 then ["temporal inconsistencies"]
     else if temporal_score > 0.7 then ["stable temporal patterns"] else [])
  let reasons := if reasons.isEmpty then ["mixed signals across analysis"] else reasons
  ⟨dc.1, dc.2, pyCapitalize (String.intercalate "; " reasons)⟩

end ScoreFusion

namespace FailureModes

/-- Opaque per-frame measurements used by the quality detectors in
`src/trust_engine/failure_modes.py` (Canny edge density, Sobel gradient
variance, median-filter noise estimate, frame shape); foreign OpenCV code,
modelled as parameters. -/
structure FMPrims (Frame : Type) where
  edge_density : Frame → ℚ
  gradient_variance : Frame → ℚ
  noise_mean : Frame → ℚ
  widthOf : Frame → ℕ
  heightOf : Frame → ℕ

/-- Embedding of `compression_level` (lines 9-34). -/
def compression_level {F : Type} (p : FMPrims F) (frame : F) : ℚ :=
  let edge_density := p.edge_density frame
  if edge_density ≥ 0.15 then 1.0 else edge_density / 0.15

/-- Embedding of `blocking_artifacts` (lines 37-64). -/
def blocking_artifacts {F : Type} (p : FMPrims F) (frame : F) : ℚ :=
  1.0 - min 1.0 (p.gradient_variance frame / 10000)

/-- Embedding of `noise_level` (lines 67-95). -/
def noise_level {F : Type} (p : FMPrims F) (frame : F) : ℚ :=
  let n := p.noise_mean frame
  if n ≤ 10 then 1.0 else max 0.0 (1.0 - (n - 10) / 20)

/-- Embedding of `resolution_quality` (lines 98-122). -/
def resolution_quality {F : Type} (p : FMPrims F) (frame : F) : ℚ :=
  let pixels : ℚ := (p.heightOf frame : ℚ) * (p.widthOf frame : ℚ)
  if pixels ≥ 1280 * 720 then 1.0
  else if pixels ≥ 640 * 480 then 0.7
  else max 0.3 (pixels / (640 * 480))

/-- Python list slice `l[::step]` for `step ≥ 1`: every `step`-th element. -/
def everyNth {α : Type} : List α → ℕ → List α
  | [], _ => []
  | a :: rest, step => a :: everyNth (rest.drop (step - 1)) step
termination_by l _ => l.length
decreasing_by
  simp only [List.length_cons, List.length_drop]
  exact Nat.lt_succ_of_le (Nat.sub_le _ _)

/-- Arithmetic mean of a list of rationals (`np.mean`). -/
def listMean (l : List ℚ) : ℚ := l.sum / l.length

/-- Quality dictionary returned by `analyze_quality` in
`src/trust_engine/failure_modes.py`: five keys, always present. -/
structure AQ where
  compression : ℚ
  blocking : ℚ
  noise : ℚ
  resolution : ℚ
  overall : ℚ
deriving Repr, DecidableEq

/-- Embedding of `analyze_quality` from `src/trust_engine/failure_modes.py`
(lines 125-168).  Empty input returns the all-zero dictionary (overall 0.0);
otherwise it samples `frames[::max(1, len(frames)//5)][:5]` and aggregates
the four detectors with weights 0.3/0.2/0.2/0.3. -/
def analyze_quality {F : Type} (p : FMPrims F) (frames : List F) : AQ :=
  if frames.isEmpty then ⟨0.0, 0.0, 0.0, 0.0, 0.0⟩
  else
    let sample_frames := (everyNth frames (max 1 (frames.length / 5))).take 5
    let compression := listMean (sample_frames.map (compression_level p))
    let blocking := listMean (sample_frames.map (blocking_artifacts p))
    let noise := listMean (sample_frames.map (noise_level p))
    let resolution := listMean (sample_frames.map (resolution_quality p))
    let overall := 0.3 * compression + 0.2 * blocking + 0.2 * noise + 0.3 * resolution
    ⟨compression, blocking, noise, resolution, overall⟩

end FailureModes

namespace Adversarial

/-- Opaque per-frame attack transforms from `src/trust_engine/adversarial.py`.
The bodies of `add_compression_artifacts`, `add_gaussian_noise`, `add_blur`,
`resize_and_upscale`, `crop_and_pad` and `add_color_shift` are foreign
OpenCV/NumPy code; each takes the input frame and the numeric parameter and
produces a new frame (none of them writes into its input array). -/
structure CVPrims (Frame : Type) where
  add_compression_artifacts : Frame → ℚ → Frame
  add_gaussian_noise : Frame → ℚ → Frame
  add_blur : Frame → ℚ → Frame
  resize_and_upscale : Frame → ℚ → Frame
  crop_and_pad : Frame → ℚ → Frame
  add_color_shift : Frame → ℚ → Frame

/-- The `intensity_params` dictionary of `apply_adversarial_attack`
(`src/trust_engine/adversarial.py` lines 128-135). -/
def intensity_params : List (String × List (String × ℚ)) :=
  [("compression", [("low", 80), ("medium", 50), ("high", 20)]),
   ("noise", [("low", 10), ("medium", 25), ("high", 50)]),
   ("blur", [("low", 3), ("medium", 5), ("high", 9)]),
   ("resolution", [("low", 0.8), ("medium", 0.5), ("high", 0.3)]),
   ("crop", [("low", 0.1), ("medium", 0.2), ("high", 0.35)]),
   ("color", [("low", 10), ("medium", 20), ("high", 40)])]

/-- Lookup `intensity_params[attack_type][intensity]`; `none` models the
Python `KeyError`. -/
def lookupParam (attack_type intensity : String) : Option ℚ :=
  (List.lookup attack_type intensity_params).bind (List.lookup intensity)

/-- Per-frame dispatch of the attack loop body in `apply_adversarial_attack`
(lines 140-156); the final `else` keeps the frame itself. -/
def attackFrame {F : Type} (p : CVPrims F) (attack_type : String) (param : ℚ)
    (frame : F) : F :=
  if attack_type = "compression" then p.add_compression_artifacts frame param
  else if attack_type = "noise" then p.add_gaussian_noise frame param
  else if attack_type = "blur" then p.add_blur frame param
  else if attack_type = "resolution" then p.resize_and_upscale frame param
  else if attack_type = "crop" then p.crop_and_pad frame param
  else if attack_type = "color" then p.add_color_shift frame param
  else frame

/-- Embedding of `apply_adversarial_attack` (lines 116-158): parameter lookup
followed by a map over the frames building a fresh list. -/
def apply_adversarial_attack {F : Type} (p : CVPrims F) (frames : List F)
    (attack_type intensity : String) : Option (List F) :=
  match lookupParam attack_type intensity with
  | none => none
  | some param => some (frames.map (attackFrame p attack_type param))

/-- The fixed attack catalog of `test_robustness` (lines 172-180). -/
def attacksCatalog : List (String × String) :=
  [("compression", "low"), ("compression", "medium"), ("compression", "high"),
   ("noise", "medium"), ("blur", "medium"), ("resolution", "medium"),
   ("crop", "medium")]

/-- Per-attack entry of the result dictionary of `test_robustness`. -/
structure AttackEntry where
  score : ℚ
  degradation : ℚ
deriving Repr, DecidableEq

/-- Result dictionary of `test_robustness`: the original score and the
`attacks` map keyed by `"{attack_type}_{intensity}"`. -/
structure AdversarialResult where
  original : ℚ
  attacks : List (String × AttackEntry)
deriving Repr, DecidableEq

/-- Failures that can escape `test_robustness`: an exception raised by the
caller-supplied scoring function, or a `KeyError` from the parameter lookup.
The source has no handler around either. -/
inductive RunErr (ε : Type) where
  | scoreErr (e : ε)
  | keyErr
deriving Repr, DecidableEq

/-- The attack loop of `test_robustness` (lines 187-195): each iteration
applies the attack, scores the attacked frames, and records
`degradation = |original - score|`.  An exception anywhere aborts the loop. -/
def runAttacks {F ε : Type} (p : CVPrims F) (frames : List F)
    (fn : List F → Except ε ℚ) (original : ℚ) :
    List (String × String) → Except (RunErr ε) (List (String × AttackEntry))
  | [] => .ok []
  | (t, i) :: rest =>
    match apply_adversarial_attack p frames t i with
    | none => .error .keyErr
    | some attacked =>
      match fn attacked with
      | .error e => .error (.scoreErr e)
      | .ok score =>
        match runAttacks p frames fn original rest with
        | .error e => .error e
        | .ok out => .ok ((t ++ "_" ++ i, ⟨score, |original - score|⟩) :: out)

/-- Embedding of `test_robustness` (lines 161-197): scores the original
frames, then runs the attack catalog; any exception propagates. -/
def test_robustness {F ε : Type} (p : CVPrims F) (frames : List F)
    (fn : List F → Except ε ℚ) : Except (RunErr ε) AdversarialResult :=
  match fn frames with
  | .error e => .error (.scoreErr e)
  | .ok original =>
    match runAttacks p frames fn original attacksCatalog with
    | .error e => .error e
    | .ok atts => .ok ⟨original, atts⟩

end Adversarial

namespace AdvStore

/-- Heap of frame arrays: the cells are NumPy arrays, addressed by index.
Used to state that the attack pipeline never writes into the caller's
arrays. -/
structure Store (α : Type) where
  cells : List α
deriving Repr, DecidableEq

/-- Read a cell (array) from the store. -/
def readS {α : Type} [Inhabited α] (s : Store α) (a : ℕ) : α :=
  s.cells.getD a default

/-- Allocate a fresh cell holding `v`; returns its address.  Every helper in
`src/trust_engine/adversarial.py` produces its output this way: `imdecode`,
`astype`/`clip`, `GaussianBlur`, `resize`, `merge` all build new arrays. -/
def alloc {α : Type} (s : Store α) (v : α) : Store α × ℕ :=
  (⟨s.cells ++ [v]⟩, s.cells.length)

/-- Store-level body of the attack loop in `apply_adversarial_attack`: each of
the six recognised attack types reads the input array and allocates a fresh
output array computed from it; the final `else` (`attacked = frame`) aliases
the input address without any allocation or write. -/
def attackStep {α : Type} [Inhabited α] (p : Adversarial.CVPrims α)
    (attack_type : String) (param : ℚ) (s : Store α) (a : ℕ) : Store α × ℕ :=
  if attack_type = "compression" then
    alloc s (p.add_compression_artifacts (readS s a) param)
  else if attack_type = "noise" then
    alloc s (p.add_gaussian_noise (readS s a) param)
  else if attack_type = "blur" then
    alloc s (p.add_blur (readS s a) param)
  else if attack_type = "resolution" then
    alloc s (p.resize_and_upscale (readS s a) param)
  else if attack_type = "crop" then
    alloc s (p.crop_and_pad (readS s a) param)
  else if attack_type = "color" then
    alloc s (p.add_color_shift (readS s a) param)
  else (s, a)

/-- The frame loop of `apply_adversarial_attack`, threading the store and
building the fresh `attacked_frames` list of addresses. -/
def applyLoop {α : Type} [Inhabited α] (p : Adversarial.CVPrims α)
    (attack_type : String) (param : ℚ) :
    Store α → List ℕ → Store α × List ℕ
  | s, [] => (s, [])
  | s, a :: rest =>
    let step := attackStep p attack_type param s a
    let next := applyLoop p attack_type param step.1 rest
    (next.1, step.2 :: next.2)

/-- Store-level embedding of `apply_adversarial_attack` (lines 116-158):
parameter lookup (a `KeyError` is `none`), then the frame loop. -/
def apply_adversarial_attackS {α : Type} [Inhabited α]
    (p : Adversarial.CVPrims α) (s : Store α) (frames : List ℕ)
    (attack_type intensity : String) : Option (Store α × List ℕ) :=
  match Adversarial.lookupParam attack_type intensity with
  | none => none
  | some param => some (applyLoop p attack_type param s frames)

end AdvStore

namespace Batch

/-- Python value as seen by the truthiness tests in `update_job_progress`
(`if result:` / analyze return values): either `None` or an object carrying
its truthiness; `tag` distinguishes concrete objects. -/
inductive PyVal where
  | vNone
  | obj (truthy : Bool) (tag : ℕ)
deriving Repr, DecidableEq

/-- Python truthiness of a value (`None` is falsy). -/
def PyVal.isTruthy : PyVal → Bool
  | .vNone => false
  | .obj b _ => b

/-- Truthiness of the optional `error` string argument: absent (`None`) and
the empty string are falsy. -/
def errTruthy : Option String → Bool
  | none => false
  | some e => e ≠ ""

/-- File entry of a batch job: `update_job_progress` and `process_file`
handle both a plain path string and a dictionary. -/
inductive FileInfo where
  | str (s : String)
  | dict (entries : List (String × String))
deriving Repr, DecidableEq

/-- Python `dict.get` on the string-to-string dictionaries of `FileInfo`. -/
def dictGet (es : List (String × String)) (k : String) : Option String :=
  List.lookup k es

/-- Filename resolution in `update_job_progress` (lines 68-73):
`file_info.get('filename', file_info.get('path', 'unknown'))` for the
dictionary form, the string itself otherwise. -/
def filenameOf : FileInfo → String
  | .str s => s
  | .dict es => ((dictGet es "filename").orElse fun _ => dictGet es "path").getD "unknown"

/-- Filepath resolution in `process_file` (lines 126-130):
`file_info.get('path', file_info)` — a dictionary without a `path` key is
passed through unchanged. -/
def filepathOf : FileInfo → FileInfo
  | .str s => .str s
  | .dict es =>
    match dictGet es "path" with
    | some p => .str p
    | none => .dict es

/-- Entry appended to `job['results']` by `update_job_progress`. -/
structure ResultEntry where
  file_index : ℕ
  filename : String
  result : PyVal
deriving Repr, DecidableEq

/-- Entry appended to `job['errors']` by `update_job_progress`. -/
structure ErrorEntry where
  file_index : ℕ
  filename : String
  error : String
deriving Repr, DecidableEq

/-- Job record created by `BatchProcessor.create_job`
(`src/utils/batch_processor.py` lines 40-49).  The `start_time`/`end_time`
timestamps are wall-clock values; only the fact that `end_time` gets set is
modelled (`endTimeSet`).  `progress` is absent until the first update. -/
structure Job where
  id : String
  files : List FileInfo
  total : ℕ
  completed : ℕ
  status : String
  results : List ResultEntry
  errors : List ErrorEntry
  progress : Option ℚ
  endTimeSet : Bool
deriving Repr, DecidableEq

/-- State of a `BatchProcessor`: the `jobs` dictionary (insertion-ordered,
keyed by job id).  The per-job `locks` mirror the keys of `jobs`; this
sequential model runs each locked section atomically. -/
structure BatchProcessor where
  jobs : List (String × Job)
deriving Repr, DecidableEq

/-- Python dictionary assignment `d[k] = v`: replace the existing binding or
append a new one. -/
def setJob : List (String × Job) → String → Job → List (String × Job)
  | [], jid, j => [(jid, j)]
  | (k, v) :: rest, jid, j =>
    if k = jid then (jid, j) :: rest else (k, v) :: setJob rest jid j

/-- Embedding of `BatchProcessor.create_job` (lines 29-52): unconditionally
allocates a fresh job record (no validation of `files`). -/
def create_job (bp : BatchProcessor) (job_id : String) (files : List FileInfo) :
    BatchProcessor × Job :=
  let job : Job :=
    { id := job_id, files := files, total := files.length, completed := 0,
      status := "pending", results := [], errors := [], progress := none,
      endTimeSet := false }
  (⟨setJob bp.jobs job_id job⟩, job)

/-- Embedding of `BatchProcessor.update_job_progress` (lines 54-97).
`none` models an escaping exception (`KeyError` for an unknown job id,
`IndexError` for an out-of-range file index).  A truthy `result` appends to
`results`, a truthy `error` appends to `errors`, `completed` is always
incremented, and the status moves to `completed` exactly when the counter
reaches `total` (else `pending` moves to `processing`). -/
def update_job_progress (bp : BatchProcessor) (job_id : String)
    (file_index : ℕ) (result : PyVal) (error : Option String) :
    Option BatchProcessor :=
  match List.lookup job_id bp.jobs with
  | none => none
  | some job =>
    match job.files.get? file_index with
    | none => none
    | some file_info =>
      let completed1 := job.completed + 1
      let filename := filenameOf file_info
      let results1 :=
        if result.isTruthy then
          job.results ++ [⟨file_index, filename, result⟩]
        else job.results
      let errors1 :=
        match error with
        | some e =>
          if errTruthy (some e) then job.errors ++ [⟨file_index, filename, e⟩]
          else job.errors
        | none => job.errors
      let status1 :=
        if completed1 = job.total then "completed"
        else if job.status = "pending" then "processing"
        else job.status
      let endSet1 := if completed1 = job.total then true else job.endTimeSet
      let progress1 : ℚ := (completed1 : ℚ) / (job.total : ℚ) * 100
      some ⟨setJob bp.jobs job_id
        { job with
            completed := completed1,
            results := results1,
            errors := errors1,
            status := status1,
            endTimeSet := endSet1,
            progress := some progress1 }⟩

/-- Embedding of `BatchProcessor.process_file` (lines 115-134).  A normal
return of `analyze_function` reports `result=...`; an exception is caught and
reported as `error=str(e)`.  A missing job id crashes (the recovery call to
`update_job_progress` raises `KeyError` again); an out-of-range index is
caught and re-raised inside `update_job_progress`. -/
def process_file (bp : BatchProcessor) (job_id : String) (file_index : ℕ)
    (analyze : FileInfo → Except String PyVal) : Option BatchProcessor :=
  match List.lookup job_id bp.jobs with
  | none => none
  | some job =>
    match job.files.get? file_index with
    | none => update_job_progress bp job_id file_index .vNone (some "list index out of range")
    | some file_info =>
      match analyze (filepathOf file_info) with
      | .ok result => update_job_progress bp job_id file_index result none
      | .error e => update_job_progress bp job_id file_index .vNone (some e)

/-- Embedding of `BatchProcessor.get_job_status` (lines 99-113): `None` for an
unknown job id, otherwise a copy of the job record taken under the job's
lock (a value in this model). -/
def get_job_status (bp : BatchProcessor) (job_id : String) : Option Job :=
  match List.lookup job_id bp.jobs with
  | none => none
  | some j => some j

/-- One orchestrator operation, for reasoning over executions: a `create_job`
call or a `process_file` call whose analyze function produced `outcome`. -/
inductive BOp where
  | create (jid : String) (files : List FileInfo)
  | pfile (jid : String) (idx : ℕ) (outcome : Except String PyVal)

/-- Run a sequence of orchestrator operations; `none` models a crash. -/
def runOps : BatchProcessor → List BOp → Option BatchProcessor
  | bp, [] => some bp
  | bp, .create jid files :: rest => runOps (create_job bp jid files).1 rest
  | bp, .pfile jid idx outcome :: rest =>
    match process_file bp jid idx (fun _ => outcome) with
    | none => none
    | some bp' => runOps bp' rest

/-- Job identifiers created by a sequence of operations. -/
def createdIds (ops : List BOp) : List String :=
  ops.filterMap fun op =>
    match op with
    | .create jid _ => some jid
    | _ => none

end Batch

namespace AppLayer

/-- Uploaded file as seen by the Flask endpoint (only the client-supplied
filename matters for validation). -/
structure UploadedFile where
  filename : String
deriving Repr, DecidableEq

/-- The `ALLOWED_EXTENSIONS` set of `src/app.py` (line 42). -/
def ALLOWED_EXTENSIONS : List String := ["mp4", "avi", "mov", "mkv", "webm"]

/-- Text after the last `'.'` of a filename (`filename.rsplit('.', 1)[1]`). -/
def extOf (filename : String) : String :=
  (filename.splitOn ".").getLastD ""

/-- Embedding of `allowed_file` from `src/app.py` (lines 45-46). -/
def allowed_file (filename : String) : Bool :=
  filename.contains '.' && ALLOWED_EXTENSIONS.contains (extOf filename).toLower

/-- HTTP response of the batch-creation endpoint: success payload or an
error JSON with its status code. -/
inductive Response where
  | ok (job_id : String) (status : String) (total_files : ℕ)
  | errorResp (msg : String) (code : ℕ)
deriving Repr, DecidableEq

/-- Embedding of the `create_batch_job` endpoint from `src/app.py`
(lines 426-463).  `secure` stands for `werkzeug.utils.secure_filename` and
`upload_folder` for the configured upload directory, both opaque here.  An
empty upload list, or a list with no allowed filename, is rejected with a 400
response before `create_job` is ever called. -/
def create_batch_job (secure : String → String) (upload_folder : String)
    (bp : Batch.BatchProcessor) (job_id : String)
    (files : List UploadedFile) : Batch.BatchProcessor × Response :=
  if files.isEmpty then (bp, .errorResp "No videos provided" 400)
  else
    let file_paths : List Batch.FileInfo :=
      (files.filter fun f => allowed_file f.filename).map fun f =>
        .str (upload_folder ++ "/" ++ job_id ++ "_" ++ secure f.filename)
    if file_paths.isEmpty then (bp, .errorResp "No valid video files" 400)
    else
      let (bp', job) := Batch.create_job bp job_id file_paths
      (bp', .ok job_id job.status job.total)

end AppLayer
namespace Batch

theorem lookup_setJob_self (jobs : List (String × Job)) (jid : String) (j : Job) :
    List.lookup jid (setJob jobs jid j) = some j := by
  induction jobs with
  | nil => simp [setJob, List.lookup]
  | cons kv rest ih =>
    obtain ⟨k, v⟩ := kv
    by_cases hk : k = jid
    · subst hk
      simp [setJob, List.lookup]
    · have hbeq : (jid == k) = false := beq_eq_false_iff_ne.mpr (Ne.symm hk)
      simp [setJob, hk, List.lookup, hbeq, ih]

theorem lookup_setJob_ne (jobs : List (String × Job)) (jid jid' : String)
    (j : Job) (h : jid' ≠ jid) :
    List.lookup jid' (setJob jobs jid j) = List.lookup jid' jobs := by
  have hbeq : (jid' == jid) = false := beq_eq_false_iff_ne.mpr h
  induction jobs with
  | nil => simp [setJob, List.lookup, hbeq]
  | cons kv rest ih =>
    obtain ⟨k, v⟩ := kv
    by_cases hk : k = jid
    · subst hk
      simp [setJob, List.lookup, hbeq]
    · simp [setJob, hk, List.lookup, ih]

theorem update_lookup_ne (bp bp' : BatchProcessor) (jid jid' : String)
    (idx : ℕ) (r : PyVal) (e : Option String)
    (h : update_job_progress bp jid idx r e = some bp') (hne : jid' ≠ jid) :
    List.lookup jid' bp'.jobs = List.lookup jid' bp.jobs := by
  unfold update_job_progress at h
  split at h
  · exact absurd h (by simp)
  · split at h
    · exact absurd h (by simp)
    · simp only [Option.some.injEq] at h
      subst h
      exact lookup_setJob_ne _ _ _ _ hne

theorem update_lookup_self (bp bp' : BatchProcessor) (jid : String)
    (idx : ℕ) (r : PyVal) (e : Option String)
    (h : update_job_progress bp jid idx r e = some bp') :
    ∃ j, List.lookup jid bp'.jobs = some j := by
  unfold update_job_progress at h
  split at h
  · exact absurd h (by simp)
  · split at h
    · exact absurd h (by simp)
    · simp only [Option.some.injEq] at h
      subst h
      exact ⟨_, lookup_setJob_self _ _ _⟩

theorem process_file_as_update (bp bp' : BatchProcessor) (jid : String)
    (idx : ℕ) (analyze : FileInfo → Except String PyVal)
    (h : process_file bp jid idx analyze = some bp') :
    ∃ r e, update_job_progress bp jid idx r e = some bp' := by
  unfold process_file at h
  split at h
  · exact absurd h (by simp)
  · split at h
    · exact ⟨_, _, h⟩
    · split at h
      · exact ⟨_, _, h⟩
      · exact ⟨_, _, h⟩

end Batch
namespace Batch

theorem runOps_lookup_none (ops : List BOp) (bp bp' : BatchProcessor)
    (jid : String) (h : runOps bp ops = some bp')
    (hnone : List.lookup jid bp.jobs = none) (hnc : jid ∉ createdIds ops) :
    List.lookup jid bp'.jobs = none := by
  induction ops generalizing bp with
  | nil =>
    simp only [runOps, Option.some.injEq] at h
    subst h; exact hnone
  | cons op rest ih =>
    cases op with
    | create jid' files =>
      have hne : jid ≠ jid' := by
        intro hcontra
        exact hnc (by simp [createdIds, hcontra])
      have hrest : jid ∉ createdIds rest := fun hm =>
        hnc (by simp [createdIds] at hm ⊢; exact Or.inr hm)
      refine ih _ h ?_ hrest
      simpa [create_job, lookup_setJob_ne _ _ _ _ hne] using hnone
    | pfile jid' idx outcome =>
      simp only [runOps] at h
      cases hp : process_file bp jid' idx (fun _ => outcome) with
      | none => rw [hp] at h; exact absurd h (by simp)
      | some bp1 =>
        rw [hp] at h
        have hrest : jid ∉ createdIds rest := fun hm =>
          hnc (by simp [createdIds] at hm ⊢; exact hm)
        by_cases hne : jid = jid'
        · subst hne
          unfold process_file at hp
          rw [hnone] at hp
          exact absurd hp (by simp)
        · obtain ⟨r, e, hu⟩ := process_file_as_update _ _ _ _ _ hp
          have hpre := update_lookup_ne _ _ _ _ _ _ _ hu hne
          exact ih _ h (hpre.trans hnone) hrest

theorem runOps_lookup_some (ops : List BOp) (bp bp' : BatchProcessor)
    (jid : String) (h : runOps bp ops = some bp')
    (hstart : jid ∈ createdIds ops ∨ ∃ j, List.lookup jid bp.jobs = some j) :
    ∃ j, List.lookup jid bp'.jobs = some j := by
  induction ops generalizing bp with
  | nil =>
    simp only [runOps, Option.some.injEq] at h
    subst h
    rcases hstart with hmem | hj
    · simp [createdIds] at hmem
    · exact hj
  | cons op rest ih =>
    cases op with
    | create jid' files =>
      refine ih _ h ?_
      by_cases hne : jid = jid'
      · subst hne
        exact Or.inr ⟨_, lookup_setJob_self _ _ _⟩
      · rcases hstart with hmem | ⟨j, hj⟩
        · simp [createdIds] at hmem
          rcases hmem with hmem | hmem
          · exact absurd hmem hne
          · exact Or.inl (by simpa [createdIds] using hmem)
        · refine Or.inr ⟨j, ?_⟩
          show List.lookup jid (create_job bp jid' files).1.jobs = some j
          unfold create_job
          simpa [lookup_setJob_ne _ _ _ _ hne] using hj
    | pfile jid' idx outcome =>
      simp only [runOps] at h
      cases hp : process_file bp jid' idx (fun _ => outcome) with
      | none => rw [hp] at h; exact absurd h (by simp)
      | some bp1 =>
        rw [hp] at h
        obtain ⟨r, e, hu⟩ := process_file_as_update _ _ _ _ _ hp
        refine ih _ h ?_
        rcases hstart with hmem | ⟨j, hj⟩
        · simp [createdIds] at hmem
          exact Or.inl (by simpa [createdIds] using hmem)
        · by_cases hne : jid = jid'
          · subst hne
            exact Or.inr (update_lookup_self _ _ _ _ _ _ hu)
          · refine Or.inr ⟨j, ?_⟩
            rw [update_lookup_ne _ _ _ _ _ _ _ hu hne]
            exact hj

end Batch

/-- C10: a job identifier never created by `create_job` makes
`get_job_status` return `None` (a defined absent value, no exception), and a
created identifier yields the stored job record (a copy taken under the
job's lock; copying is identity in this value model). -/
theorem c10_get_job_status (ops : List Batch.BOp) (bp' : Batch.BatchProcessor)
    (h : Batch.runOps ⟨[]⟩ ops = some bp') (jid : String) :
    (jid ∉ Batch.createdIds ops → Batch.get_job_status bp' jid = none) ∧
    (jid ∈ Batch.createdIds ops →
      ∃ j, Batch.get_job_status bp' jid = some j ∧
        List.lookup jid bp'.jobs = some j) := by
  constructor
  · intro hnc
    have hn := Batch.runOps_lookup_none ops _ _ jid h (by simp [List.lookup]) hnc
    simp [Batch.get_job_status, hn]
  · intro hmem
    obtain ⟨j, hj⟩ := Batch.runOps_lookup_some ops _ _ jid h (Or.inl hmem)
    exact ⟨j, by simp [Batch.get_job_status, hj], hj⟩

/-- Concrete run used by the C10 witness: one job `"a"` with one file,
processed successfully. -/
def c10ops : List Batch.BOp :=
  [.create "a" [.str "f.mp4"], .pfile "a" 0 (.ok (.obj true 1))]

/-- Witness for C10: on a concrete run, the unknown id `"zzz"` queries to
`None` and the created id `"a"` queries to its job record. -/
theorem c10_get_job_status_witness :
    ∃ bp', Batch.runOps ⟨[]⟩ c10ops = some bp' ∧
      Batch.get_job_status bp' "zzz" = none ∧
      ∃ j, Batch.get_job_status bp' "a" = some j := by
  have hs : (Batch.runOps ⟨[]⟩ c10ops).isSome = true := by decide
  have hrun : Batch.runOps ⟨[]⟩ c10ops = some ((Batch.runOps ⟨[]⟩ c10ops).get hs) :=
    (Option.some_get hs).symm
  refine ⟨_, hrun, ?_, ?_⟩
  · exact (c10_get_job_status c10ops _ hrun "zzz").1 (by decide)
  · obtain ⟨j, hj, _⟩ := (c10_get_job_status c10ops _ hrun "a").2 (by decide)
    exact ⟨j, hj⟩
/-- C8: both quality-assessment entry points are total on the empty frame
list but disagree on the neutral fallback: `analyze_quality` in
`failure_modes.py` returns `overall = 0.0` while `assess_quality` in
`score_fusion.py` returns `overall = 0.5`. -/
theorem c8_empty_quality_fallbacks (F : Type) (p : FailureModes.FMPrims F)
    (m : ScoreFusion.FrameMetrics F) :
    (FailureModes.analyze_quality p ([] : List F)).overall = 0 ∧
    (ScoreFusion.assess_quality m ([] : List F)).overall = 0.5 ∧
    (FailureModes.analyze_quality p ([] : List F)).overall ≠
      (ScoreFusion.assess_quality m ([] : List F)).overall := by
  have h1 : (FailureModes.analyze_quality p ([] : List F)).overall = 0 := by
    norm_num [FailureModes.analyze_quality]
  have h2 : (ScoreFusion.assess_quality m ([] : List F)).overall = 0.5 := by
    norm_num [ScoreFusion.assess_quality]
  refine ⟨h1, h2, ?_⟩
  rw [h1, h2]
  norm_num

/-- C9: submitting an empty batch (empty upload list) to the batch-creation
endpoint is rejected with a 400 error before `create_job` runs: the job
table is returned unchanged, so no `BatchJob` is allocated for an empty file
sequence. -/
theorem c9_empty_batch_rejected (secure : String → String)
    (upload_folder : String) (bp : Batch.BatchProcessor) (job_id : String) :
    (AppLayer.create_batch_job secure upload_folder bp job_id []).1 = bp ∧
    (AppLayer.create_batch_job secure upload_folder bp job_id []).2 =
      .errorResp "No videos provided" 400 := by
  exact ⟨rfl, rfl⟩
namespace Scorer

/-- Five-band decision classifier for the top quality tier, stated in the
specification's words, for comparison with the decision `trust_score`
computes. -/
def specFiveBand (score : ℚ) : String :=
  if score > 0.7 then "Real"
  else if score < 0.3 then "Fake"
  else if score > 0.55 then "Likely Real"
  else if score < 0.45 then "Likely Fake"
  else "Ambiguous"

/-- Appending insights does not change the score. -/
theorem trust_score_score (v a t q : ℚ) :
    (trust_score v a t q).score = (baseTS v a t q).score := by
  unfold trust_score appendInsights
  split <;> rfl

/-- Appending insights does not change the decision. -/
theorem trust_score_decision (v a t q : ℚ) :
    (trust_score v a t q).decision = (baseTS v a t q).decision := by
  unfold trust_score appendInsights
  split <;> rfl

end Scorer

/-- C2: with `quality ≥ 0.7` the fusion applies no dampening — the returned
score is exactly `0.4*vision + 0.3*audio + 0.3*temporal` — and the decision
is the five-band classifier applied to that score (`>0.7` Real, `<0.3` Fake,
`>0.55` Likely Real, `<0.45` Likely Fake, else Ambiguous). -/
theorem c2_no_dampening_five_band (v a t q : ℚ)
    (hv : 0 ≤ v ∧ v ≤ 1) (ha : 0 ≤ a ∧ a ≤ 1) (ht : 0 ≤ t ∧ t ≤ 1)
    (hq : 0.7 ≤ q) :
    (Scorer.trust_score v a t q).score = 0.4 * v + 0.3 * a + 0.3 * t ∧
    (Scorer.trust_score v a t q).decision =
      Scorer.specFiveBand (0.4 * v + 0.3 * a + 0.3 * t) := by
  have h1 : ¬ q < 0.3 := by norm_num; linarith
  have h2 : ¬ q < 0.5 := by norm_num; linarith
  have h3 : ¬ q < 0.7 := by norm_num; linarith
  have hraw : v * 0.4 + a * 0.3 + t * 0.3 = 0.4 * v + 0.3 * a + 0.3 * t := by ring
  rw [Scorer.trust_score_score, Scorer.trust_score_decision]
  constructor
  · simp only [Scorer.baseTS, if_neg h1, if_neg h2, if_neg h3]
    split_ifs <;> exact hraw
  · simp only [Scorer.baseTS, if_neg h1, if_neg h2, if_neg h3]
    rw [← hraw]
    unfold Scorer.specFiveBand
    split_ifs <;> rfl

/-- Witness for C2 at the specification's own example
`fuse(0.8, 0.8, 0.8, quality 0.9)`. -/
theorem c2_no_dampening_five_band_witness :
    (Scorer.trust_score 0.8 0.8 0.8 0.9).score = 0.4 * 0.8 + 0.3 * 0.8 + 0.3 * 0.8 ∧
    (Scorer.trust_score 0.8 0.8 0.8 0.9).decision =
      Scorer.specFiveBand (0.4 * 0.8 + 0.3 * 0.8 + 0.3 * 0.8) :=
  c2_no_dampening_five_band 0.8 0.8 0.8 0.9 ⟨by norm_num, by norm_num⟩
    ⟨by norm_num, by norm_num⟩ ⟨by norm_num, by norm_num⟩ (by norm_num)
/-- C3: the dampening tiers of the fusion: `quality < 0.3` gives
`raw * 0.4` with decision forced to Ambiguous; `0.3 ≤ quality < 0.5` gives
`raw * 0.6` with decision forced to Ambiguous; `0.5 ≤ quality < 0.7` gives
`raw * 0.85` with Likely Real above 0.65, Likely Fake below 0.35, else
Ambiguous; `0.7 ≤ quality` gives `raw` undamped — so a boundary value
(0.3, 0.5 or 0.7) belongs to the higher tier. -/
theorem c3_dampening_tiers (v a t q : ℚ) :
    (q < 0.3 →
      (Scorer.trust_score v a t q).score = (0.4 * v + 0.3 * a + 0.3 * t) * 0.4 ∧
      (Scorer.trust_score v a t q).decision = "Ambiguous") ∧
    (0.3 ≤ q → q < 0.5 →
      (Scorer.trust_score v a t q).score = (0.4 * v + 0.3 * a + 0.3 * t) * 0.6 ∧
      (Scorer.trust_score v a t q).decision = "Ambiguous") ∧
    (0.5 ≤ q → q < 0.7 →
      (Scorer.trust_score v a t q).score = (0.4 * v + 0.3 * a + 0.3 * t) * 0.85 ∧
      (Scorer.trust_score v a t q).decision =
        (if (0.4 * v + 0.3 * a + 0.3 * t) * 0.85 > 0.65 then "Likely Real"
         else if (0.4 * v + 0.3 * a + 0.3 * t) * 0.85 < 0.35 then "Likely Fake"
         else "Ambiguous")) ∧
    (0.7 ≤ q →
      (Scorer.trust_score v a t q).score = 0.4 * v + 0.3 * a + 0.3 * t) := by
  have hraw : v * 0.4 + a * 0.3 + t * 0.3 = 0.4 * v + 0.3 * a + 0.3 * t := by ring
  rw [Scorer.trust_score_score, Scorer.trust_score_decision]
  refine ⟨?_, ?_, ?_, ?_⟩
  · intro h1
    constructor
    · simp only [Scorer.baseTS, if_pos h1]
      rw [hraw]
    · simp only [Scorer.baseTS, if_pos h1]
  · intro hlo hhi
    have h1 : ¬ q < 0.3 := by intro hc; norm_num at hc hlo; linarith
    constructor
    · simp only [Scorer.baseTS, if_neg h1, if_pos hhi]
      rw [hraw]
    · simp only [Scorer.baseTS, if_neg h1, if_pos hhi]
  · intro hlo hhi
    have h1 : ¬ q < 0.3 := by intro hc; norm_num at hc hlo; linarith
    have h2 : ¬ q < 0.5 := by intro hc; norm_num at hc hlo; linarith
    constructor
    · simp only [Scorer.baseTS, if_neg h1, if_neg h2, if_pos hhi]
      split_ifs <;> exact congrArg (· * 0.85) hraw
    · simp only [Scorer.baseTS, if_neg h1, if_neg h2, if_pos hhi]
      rw [← hraw]
      split_ifs <;> rfl
  · intro hq
    have h1 : ¬ q < 0.3 := by norm_num; linarith
    have h2 : ¬ q < 0.5 := by norm_num; linarith
    have h3 : ¬ q < 0.7 := by norm_num; linarith
    simp only [Scorer.baseTS, if_neg h1, if_neg h2, if_neg h3]
    split_ifs <;> exact hraw

/-- Witness for C3: each tier implication instantiated — tier 1 at
`quality = 0.2`, and the boundary qualities 0.3, 0.5 and 0.7 landing in
their respective higher tiers. -/
theorem c3_dampening_tiers_witness :
    ((Scorer.trust_score 1 1 1 0.2).score = (0.4 * 1 + 0.3 * 1 + 0.3 * 1) * 0.4 ∧
      (Scorer.trust_score 1 1 1 0.2).decision = "Ambiguous") ∧
    ((Scorer.trust_score 1 1 1 0.3).score = (0.4 * 1 + 0.3 * 1 + 0.3 * 1) * 0.6 ∧
      (Scorer.trust_score 1 1 1 0.3).decision = "Ambiguous") ∧
    ((Scorer.trust_score 1 1 1 0.5).score = (0.4 * 1 + 0.3 * 1 + 0.3 * 1) * 0.85 ∧
      (Scorer.trust_score 1 1 1 0.5).decision =
        (if (0.4 * 1 + 0.3 * 1 + 0.3 * 1) * 0.85 > (0.65 : ℚ) then "Likely Real"
         else if (0.4 * 1 + 0.3 * 1 + 0.3 * 1) * 0.85 < (0.35 : ℚ) then "Likely Fake"
         else "Ambiguous")) ∧
    ((Scorer.trust_score 1 1 1 0.7).score = 0.4 * 1 + 0.3 * 1 + 0.3 * 1) :=
  ⟨(c3_dampening_tiers 1 1 1 0.2).1 (by norm_num),
   (c3_dampening_tiers 1 1 1 0.3).2.1 (by norm_num) (by norm_num),
   (c3_dampening_tiers 1 1 1 0.5).2.2.1 (by norm_num) (by norm_num),
   (c3_dampening_tiers 1 1 1 0.7).2.2.2 (by norm_num)⟩
namespace ScoreFusion

/-- Score-only confidence bands, in the words forced by the source of
`generate_report`: high for `score ≥ 0.7`, medium for `[0.55, 0.7)`, low for
`[0.45, 0.55)`, medium for `[0.3, 0.45)`, high below 0.3. -/
def specConfBands (score : ℚ) : String :=
  if score ≥ 0.7 then "high"
  else if score ≥ 0.55 then "medium"
  else if score ≥ 0.45 then "low"
  else if score ≥ 0.3 then "medium"
  else "high"

end ScoreFusion

/-- Counterexample for C4: at `vision = audio = temporal = 0.5` and
`quality = 0.2` (tier 1, `quality < 0.5`), the fused score is 0.2 and the
confidence label `generate_report` attaches to it is `high` — not the
`low`/`medium` the claim requires for tiers 1-2, because the code derives
confidence from the score alone. -/
theorem c4_counterexample :
    (Scorer.trust_score 0.5 0.5 0.5 0.2).score = 0.2 ∧
    (0.2 : ℚ) < 0.5 ∧
    (ScoreFusion.generate_report (Scorer.trust_score 0.5 0.5 0.5 0.2).score
        ⟨some 0.5, some 0.5, some 0.5⟩
        ⟨0.2, none, none, none, none⟩).confidence = "high" ∧
    ("high" : String) ≠ "low" ∧ ("high" : String) ≠ "medium" := by
  have hscore : (Scorer.trust_score 0.5 0.5 0.5 0.2).score = 0.2 := by
    rw [Scorer.trust_score_score]
    simp only [Scorer.baseTS, if_pos (by norm_num : (0.2 : ℚ) < 0.3)]
    norm_num
  refine ⟨hscore, by norm_num, ?_, by decide, by decide⟩
  rw [hscore]
  simp only [ScoreFusion.generate_report]
  norm_num

/-- C4 (amended): the confidence label is drawn from
high/medium/low, but it is a function of the score alone — the five
score-bands of `generate_report` — independent of the signal values and of
the quality assessment; the quality tier does not enter. -/
theorem c4_amended_confidence_bands (t : ℚ) (sig sig' : ScoreFusion.Signals)
    (qa qa' : ScoreFusion.QA) :
    (ScoreFusion.generate_report t sig qa).confidence =
      ScoreFusion.specConfBands t ∧
    (ScoreFusion.generate_report t sig qa).confidence =
      (ScoreFusion.generate_report t sig' qa').confidence ∧
    ((ScoreFusion.generate_report t sig qa).confidence = "high" ∨
     (ScoreFusion.generate_report t sig qa).confidence = "medium" ∨
     (ScoreFusion.generate_report t sig qa).confidence = "low") := by
  have hband : ∀ (s : ScoreFusion.Signals) (q : ScoreFusion.QA),
      (ScoreFusion.generate_report t s q).confidence =
        ScoreFusion.specConfBands t := by
    intro s q
    simp only [ScoreFusion.generate_report, ScoreFusion.specConfBands]
    split_ifs <;> rfl
  refine ⟨hband sig qa, (hband sig qa).trans (hband sig' qa').symm, ?_⟩
  rw [hband sig qa]
  unfold ScoreFusion.specConfBands
  split_ifs <;> simp
namespace Adversarial

/-- Every attack in the fixed catalog has a parameter in `intensity_params`. -/
theorem catalog_params_present :
    ∀ ti ∈ attacksCatalog, (lookupParam ti.1 ti.2).isSome = true := by
  decide

/-- A never-failing scoring function lets the attack loop record every entry
of its attack list, with `degradation = |original - score|` throughout. -/
theorem runAttacks_ok {F ε : Type} (p : CVPrims F) (frames : List F)
    (fn : List F → Except ε ℚ) (original : ℚ) (l : List (String × String))
    (hvalid : ∀ ti ∈ l, (lookupParam ti.1 ti.2).isSome = true)
    (hfn : ∀ fs, ∃ q, fn fs = .ok q) :
    ∃ out, runAttacks p frames fn original l = .ok out ∧
      out.map Prod.fst = l.map (fun ti => ti.1 ++ "_" ++ ti.2) ∧
      (∀ e ∈ out, e.2.degradation = |original - e.2.score| ∧
        0 ≤ e.2.degradation) ∧
      ((∀ fs, fn fs = .ok original) → ∀ e ∈ out, e.2.degradation = 0) := by
  induction l with
  | nil =>
    exact ⟨[], rfl, rfl, by simp, by simp⟩
  | cons ti rest ih =>
    obtain ⟨t, i⟩ := ti
    have hv := hvalid (t, i) (List.mem_cons_self _ _)
    obtain ⟨param, hp⟩ := Option.isSome_iff_exists.mp hv
    obtain ⟨s, hs⟩ := hfn (frames.map (attackFrame p t param))
    obtain ⟨out, hout, hmap, hdeg, hconst⟩ :=
      ih (fun x hx => hvalid x (List.mem_cons_of_mem _ hx))
    refine ⟨(t ++ "_" ++ i, ⟨s, |original - s|⟩) :: out, ?_, ?_, ?_, ?_⟩
    · simp only [runAttacks, apply_adversarial_attack, hp, hs, hout]
    · simpa using hmap
    · intro e he
      rcases List.mem_cons.mp he with he | he
      · subst he
        exact ⟨rfl, abs_nonneg _⟩
      · exact hdeg e he
    · intro hc e he
      rcases List.mem_cons.mp he with he | he
      · subst he
        have : s = original := by
          have := (hc (frames.map (attackFrame p t param))).symm.trans hs
          exact (Except.ok.injEq _ _ ▸ this).symm ▸ rfl
        simp [this]
      · exact hconst hc e he

end Adversarial
/-- C6: with a never-failing scoring function, `test_robustness` returns a
result whose `attacks` map holds exactly the 7 fixed catalog entries
(compression low/medium/high; noise, blur, resolution, crop at medium), each
with `degradation = |original - score|` (hence nonnegative), and a constant
scoring function makes every degradation 0. -/
theorem c6_catalog_complete {F ε : Type} (p : Adversarial.CVPrims F)
    (frames : List F) (fn : List F → Except ε ℚ)
    (hfn : ∀ fs, ∃ q, fn fs = .ok q) :
    ∃ o atts, fn frames = .ok o ∧
      Adversarial.test_robustness p frames fn = .ok ⟨o, atts⟩ ∧
      atts.map Prod.fst =
        ["compression_low", "compression_medium", "compression_high",
         "noise_medium", "blur_medium", "resolution_medium", "crop_medium"] ∧
      (∀ e ∈ atts, e.2.degradation = |o - e.2.score| ∧ 0 ≤ e.2.degradation) ∧
      ((∀ fs fs', fn fs = fn fs') → ∀ e ∈ atts, e.2.degradation = 0) := by
  obtain ⟨o, ho⟩ := hfn frames
  obtain ⟨out, hout, hmap, hdeg, hconst⟩ :=
    Adversarial.runAttacks_ok p frames fn o Adversarial.attacksCatalog
      Adversarial.catalog_params_present hfn
  refine ⟨o, out, ho, ?_, by simpa [Adversarial.attacksCatalog] using hmap, hdeg, ?_⟩
  · simp only [Adversarial.test_robustness, ho, hout]
  · intro hc
    exact hconst fun fs => (hc fs frames).trans ho

/-- Trivial attack transforms on unit frames, for the C6 witness. -/
def c6prims : Adversarial.CVPrims Unit :=
  ⟨fun f _ => f, fun f _ => f, fun f _ => f, fun f _ => f, fun f _ => f,
    fun f _ => f⟩

/-- Constant, never-failing scoring function for the C6 witness. -/
def c6fn : List Unit → Except String ℚ := fun _ => .ok 0.5

/-- Witness for C6 at the constant scoring function `c6fn` on one frame. -/
theorem c6_catalog_complete_witness :
    ∃ o atts, c6fn [()] = .ok o ∧
      Adversarial.test_robustness c6prims [()] c6fn = .ok ⟨o, atts⟩ ∧
      atts.map Prod.fst =
        ["compression_low", "compression_medium", "compression_high",
         "noise_medium", "blur_medium", "resolution_medium", "crop_medium"] ∧
      (∀ e ∈ atts, e.2.degradation = |o - e.2.score| ∧ 0 ≤ e.2.degradation) ∧
      ((∀ fs fs', c6fn fs = c6fn fs') → ∀ e ∈ atts, e.2.degradation = 0) :=
  c6_catalog_complete c6prims [()] c6fn (fun _ => ⟨0.5, rfl⟩)
namespace Adversarial

/-- If the attack loop returned a result, every attack on its list was
scored successfully. -/
theorem runAttacks_ok_all {F ε : Type} (p : CVPrims F) (frames : List F)
    (fn : List F → Except ε ℚ) (original : ℚ)
    (l : List (String × String)) (out : List (String × AttackEntry))
    (h : runAttacks p frames fn original l = .ok out) :
    ∀ ti ∈ l, ∀ attacked,
      apply_adversarial_attack p frames ti.1 ti.2 = some attacked →
      ∃ q, fn attacked = .ok q := by
  induction l generalizing out with
  | nil => intro ti hti; simp at hti
  | cons hd rest ih =>
    obtain ⟨t, i⟩ := hd
    intro ti hti attacked happ
    unfold runAttacks at h
    split at h
    · exact absurd h (by simp)
    · rename_i att happ'
      split at h
      · exact absurd h (by simp)
      · rename_i q hq
        split at h
        · exact absurd h (by simp)
        · rename_i out' hout'
          rcases List.mem_cons.mp hti with hti | hti
          · subst hti
            rw [happ'] at happ
            obtain rfl := Option.some.inj happ
            exact ⟨q, hq⟩
          · exact ih out' hout' ti hti attacked happ

end Adversarial

/-- Attack transforms on natural-number frames that change every frame, for
the C5 refutation. -/
def c5prims : Adversarial.CVPrims ℕ :=
  ⟨fun f _ => f + 1, fun f _ => f + 1, fun f _ => f + 1, fun f _ => f + 1,
    fun f _ => f + 1, fun f _ => f + 1⟩

/-- Scoring function that succeeds on the original frames `[0]` and raises on
every attacked frame list, for the C5 refutation. -/
def c5fn : List ℕ → Except String ℚ :=
  fun fs => if fs = [0] then .ok 0.5 else .error "score failed"

/-- Counterexample for C5: `c5fn` scores the original frames but raises on
the first attacked sequence, and `test_robustness` aborts with that
exception — it does not mark the entry failed and it evaluates none of the
remaining catalog entries. -/
theorem c5_counterexample :
    c5fn [0] = .ok 0.5 ∧
    Adversarial.apply_adversarial_attack c5prims [0] "compression" "low" =
      some [1] ∧
    c5fn [1] = .error "score failed" ∧
    Adversarial.test_robustness c5prims [0] c5fn =
      .error (.scoreErr "score failed") := by
  refine ⟨rfl, by decide, rfl, rfl⟩

/-- C5 (amended): the robustness tester has no per-attack failure isolation —
if the scoring function raises on any catalog attack's frames, the exception
propagates and the whole evaluation returns no result at all. -/
theorem c5_amended_failure_propagation {F ε : Type} (p : Adversarial.CVPrims F)
    (frames : List F) (fn : List F → Except ε ℚ)
    (hfail : ∃ ti ∈ Adversarial.attacksCatalog, ∃ attacked,
      Adversarial.apply_adversarial_attack p frames ti.1 ti.2 = some attacked ∧
      ∀ q, fn attacked ≠ .ok q) :
    (Adversarial.test_robustness p frames fn).isOk = false := by
  obtain ⟨ti, hti, attacked, happ, hne⟩ := hfail
  cases hres : Adversarial.test_robustness p frames fn with
  | error e => rfl
  | ok r =>
    exfalso
    unfold Adversarial.test_robustness at hres
    split at hres
    · exact absurd hres (by simp)
    · rename_i o ho
      split at hres
      · exact absurd hres (by simp)
      · rename_i atts hatts
        obtain ⟨q, hq⟩ :=
          Adversarial.runAttacks_ok_all p frames fn o
            Adversarial.attacksCatalog atts hatts ti hti attacked happ
        exact hne q hq

/-- Witness for C5 (amended) at the concrete refuting inputs. -/
theorem c5_amended_failure_propagation_witness :
    (Adversarial.test_robustness c5prims [0] c5fn).isOk = false :=
  c5_amended_failure_propagation c5prims [0] c5fn
    ⟨("compression", "low"), by decide, [1], by decide,
      fun q hq => by rw [show c5fn [1] = .error "score failed" from rfl] at hq; cases hq⟩
namespace AdvStore

/-- One attack step either allocates (appending to the store) or aliases the
input address; it never rewrites an existing cell. -/
theorem attackStep_cells {α : Type} [Inhabited α] (p : Adversarial.CVPrims α)
    (t : String) (param : ℚ) (s : Store α) (a : ℕ) :
    ∃ ext, (attackStep p t param s a).1.cells = s.cells ++ ext := by
  unfold attackStep alloc
  split_ifs <;> first | exact ⟨_, rfl⟩ | exact ⟨[], (List.append_nil _).symm⟩

/-- The frame loop only ever appends to the store. -/
theorem applyLoop_cells {α : Type} [Inhabited α] (p : Adversarial.CVPrims α)
    (t : String) (param : ℚ) :
    ∀ (addrs : List ℕ) (s : Store α),
      ∃ ext, (applyLoop p t param s addrs).1.cells = s.cells ++ ext := by
  intro addrs
  induction addrs with
  | nil => exact fun s => ⟨[], (List.append_nil _).symm⟩
  | cons a rest ih =>
    intro s
    obtain ⟨ext1, h1⟩ := attackStep_cells p t param s a
    obtain ⟨ext2, h2⟩ := ih (attackStep p t param s a).1
    refine ⟨ext1 ++ ext2, ?_⟩
    show (applyLoop p t param (attackStep p t param s a).1 rest).1.cells = _
    rw [h2, h1, List.append_assoc]

end AdvStore

/-- C7: the robustness attacks never mutate the caller's frames — a
successful `apply_adversarial_attack` leaves every pre-existing array cell
of the store unchanged (each attack operates on freshly allocated copies,
and the output address list is a fresh list). -/
theorem c7_no_mutation {α : Type} [Inhabited α] (p : Adversarial.CVPrims α)
    (s : AdvStore.Store α) (frames : List ℕ) (t i : String)
    (s' : AdvStore.Store α) (out : List ℕ)
    (h : AdvStore.apply_adversarial_attackS p s frames t i = some (s', out)) :
    ∀ a, a < s.cells.length → AdvStore.readS s' a = AdvStore.readS s a := by
  intro a ha
  unfold AdvStore.apply_adversarial_attackS at h
  split at h
  · exact absurd h (by simp)
  · rename_i param hp
    have h' := Option.some.inj h
    have hs' : (AdvStore.applyLoop p t param s frames).1 = s' := by rw [h']
    obtain ⟨ext, hext⟩ := AdvStore.applyLoop_cells p t param frames s
    unfold AdvStore.readS
    rw [← hs', hext]
    exact List.getD_append _ _ _ _ ha

/-- Witness for C7: attacking the one-frame store `[7]` with medium noise
allocates the new cell `8` and leaves cell 0 untouched. -/
theorem c7_no_mutation_witness :
    (0 : ℕ) < (AdvStore.Store.mk [(7 : ℕ)]).cells.length ∧
    AdvStore.readS (AdvStore.Store.mk [7, 8]) 0 =
      AdvStore.readS (AdvStore.Store.mk [(7 : ℕ)]) 0 :=
  ⟨by decide,
    c7_no_mutation c5prims ⟨[7]⟩ [0] "noise" "medium" ⟨[7, 8]⟩ [1]
      (by decide) 0 (by decide)⟩
namespace Batch

/-- The job record produced by a successful `update_job_progress` step. -/
def updatedJob (j : Job) (idx : ℕ) (fi : FileInfo) (r : PyVal)
    (e : Option String) : Job :=
  { j with
      completed := j.completed + 1,
      results :=
        if r.isTruthy then j.results ++ [⟨idx, filenameOf fi, r⟩]
        else j.results,
      errors :=
        match e with
        | some s =>
          if errTruthy (some s) then j.errors ++ [⟨idx, filenameOf fi, s⟩]
          else j.errors
        | none => j.errors,
      status :=
        if j.completed + 1 = j.total then "completed"
        else if j.status = "pending" then "processing" else j.status,
      endTimeSet := if j.completed + 1 = j.total then true else j.endTimeSet,
      progress := some (((j.completed + 1 : ℕ) : ℚ) / (j.total : ℚ) * 100) }

/-- Closed form of a successful `update_job_progress`. -/
theorem update_job_progress_eq (bp : BatchProcessor) (jid : String)
    (idx : ℕ) (r : PyVal) (e : Option String) (j : Job) (fi : FileInfo)
    (hl : List.lookup jid bp.jobs = some j)
    (hget : j.files.get? idx = some fi) :
    update_job_progress bp jid idx r e =
      some ⟨setJob bp.jobs jid (updatedJob j idx fi r e)⟩ := by
  unfold update_job_progress updatedJob
  simp only [hl, hget]

end Batch
namespace Batch

/-- One progress update of a C1 trace: the file index processed and the
outcome of the analyze call for that file. -/
structure Upd where
  idx : ℕ
  outcome : Except String PyVal

/-- Outcomes whose update actually records an entry: a truthy result, or an
exception whose message is non-empty. -/
def goodOutcome : Except String PyVal → Bool
  | .ok r => r.isTruthy
  | .error e => errTruthy (some e)

/-- Run a list of `process_file` updates against one job. -/
def runUpdates (jid : String) : BatchProcessor → List Upd → Option BatchProcessor
  | bp, [] => some bp
  | bp, u :: rest =>
    match process_file bp jid u.idx (fun _ => u.outcome) with
    | none => none
    | some bp' => runUpdates jid bp' rest

/-- The C1 job invariant, tracking the number of updates applied so far. -/
def Inv (files : List FileInfo) (n : ℕ) (j : Job) : Prop :=
  j.files = files ∧ j.total = files.length ∧ j.completed = n ∧
  j.completed = j.results.length + j.errors.length ∧
  (j.status = "completed" ↔ j.completed = j.total)

/-- One good update preserves the C1 invariant, advancing the counter. -/
theorem process_file_preserves_inv (bp : BatchProcessor) (jid : String)
    (files : List FileInfo) (n : ℕ) (j : Job) (u : Upd)
    (hl : List.lookup jid bp.jobs = some j) (hinv : Inv files n j)
    (hidx : u.idx < files.length) (hgood : goodOutcome u.outcome = true)
    (hlt : n < files.length) :
    ∃ bp' j', process_file bp jid u.idx (fun _ => u.outcome) = some bp' ∧
      List.lookup jid bp'.jobs = some j' ∧ Inv files (n + 1) j' := by
  obtain ⟨hfiles, htotal, hcompleted, hsum, hstatus⟩ := hinv
  have hidx' : u.idx < j.files.length := by rw [hfiles]; exact hidx
  have hget : j.files.get? u.idx = some (j.files.get ⟨u.idx, hidx'⟩) :=
    List.get?_eq_get hidx'
  have hne_total : j.completed ≠ j.total := by
    rw [hcompleted, htotal]; exact Nat.ne_of_lt hlt
  have hnc : j.status ≠ "completed" := fun hc => hne_total (hstatus.mp hc)
  have hstat_iff :
      ((if j.completed + 1 = j.total then "completed"
        else if j.status = "pending" then "processing" else j.status) =
          "completed") ↔ j.completed + 1 = j.total := by
    by_cases hc : j.completed + 1 = j.total
    · rw [if_pos hc]
      exact ⟨fun _ => hc, fun _ => rfl⟩
    · rw [if_neg hc]
      refine ⟨fun hcon => ?_, fun hcon => absurd hcon hc⟩
      by_cases hp : j.status = "pending"
      · rw [if_pos hp] at hcon
        exact absurd hcon (by decide)
      · rw [if_neg hp] at hcon
        exact absurd hcon hnc
  cases hu : u.outcome with
  | ok r =>
    have hr : r.isTruthy = true := by
      rw [hu] at hgood
      simpa [goodOutcome] using hgood
    refine ⟨⟨setJob bp.jobs jid (updatedJob j u.idx (j.files.get ⟨u.idx, hidx'⟩) r none)⟩,
      updatedJob j u.idx (j.files.get ⟨u.idx, hidx'⟩) r none, ?_, ?_, ?_⟩
    · unfold process_file
      simp only [hl, hget]
      exact update_job_progress_eq bp jid u.idx r none j _ hl hget
    · exact lookup_setJob_self _ _ _
    · refine ⟨hfiles, htotal, by simp [updatedJob, hcompleted], ?_, ?_⟩
      · simp only [updatedJob, hr, if_true, List.length_append, List.length_cons,
          List.length_nil]
        omega
      · simpa only [updatedJob] using hstat_iff
  | error e =>
    have het : errTruthy (some e) = true := by
      rw [hu] at hgood
      simpa [goodOutcome] using hgood
    refine ⟨⟨setJob bp.jobs jid (updatedJob j u.idx (j.files.get ⟨u.idx, hidx'⟩) PyVal.vNone (some e))⟩,
      updatedJob j u.idx (j.files.get ⟨u.idx, hidx'⟩) PyVal.vNone (some e), ?_, ?_, ?_⟩
    · unfold process_file
      simp only [hl, hget]
      exact update_job_progress_eq bp jid u.idx PyVal.vNone (some e) j _ hl hget
    · exact lookup_setJob_self _ _ _
    · refine ⟨hfiles, htotal, by simp [updatedJob, hcompleted], ?_, ?_⟩
      · simp only [updatedJob, PyVal.isTruthy, het, if_true, Bool.false_eq_true,
          if_false, List.length_append, List.length_cons, List.length_nil]
        omega
      · simpa only [updatedJob] using hstat_iff

end Batch
namespace Batch

/-- Good updates keep the C1 invariant along a whole trace. -/
theorem runUpdates_inv (jid : String) (files : List FileInfo)
    (upds : List Upd) :
    ∀ (bp : BatchProcessor) (n : ℕ) (j : Job),
      List.lookup jid bp.jobs = some j → Inv files n j →
      (∀ u ∈ upds, u.idx < files.length) →
      (∀ u ∈ upds, goodOutcome u.outcome = true) →
      n + upds.length ≤ files.length →
      ∃ bp' j', runUpdates jid bp upds = some bp' ∧
        List.lookup jid bp'.jobs = some j' ∧ Inv files (n + upds.length) j' := by
  induction upds with
  | nil =>
    intro bp n j hl hinv _ _ _
    exact ⟨bp, j, rfl, hl, by simpa using hinv⟩
  | cons u rest ih =>
    intro bp n j hl hinv hval hgood hlen
    have hlt : n < files.length := by
      have := hlen
      simp only [List.length_cons] at this
      omega
    obtain ⟨bp1, j1, hp, hl1, hinv1⟩ :=
      process_file_preserves_inv bp jid files n j u hl hinv
        (hval u (List.mem_cons_self _ _)) (hgood u (List.mem_cons_self _ _)) hlt
    obtain ⟨bp', j', hrun, hl', hinv'⟩ :=
      ih bp1 (n + 1) j1 hl1 hinv1
        (fun x hx => hval x (List.mem_cons_of_mem _ hx))
        (fun x hx => hgood x (List.mem_cons_of_mem _ hx))
        (by simp only [List.length_cons] at hlen; omega)
    refine ⟨bp', j', ?_, hl', by
      have : n + 1 + rest.length = n + (rest.length + 1) := by omega
      rw [this] at hinv'
      simpa using hinv'⟩
    unfold runUpdates
    rw [hp]
    exact hrun

end Batch
/-- Initial processor holding the single job `"job1"` over one file, for the
C1 refutation. -/
def c1bp : Batch.BatchProcessor :=
  (Batch.create_job ⟨[]⟩ "job1" [.str "a.mp4"]).1

/-- An analyze function that returns Python `None` (falsy), for the C1
refutation. -/
def c1analyze : Batch.FileInfo → Except String Batch.PyVal :=
  fun _ => .ok .vNone

/-- Counterexample for C1: `process_file` with an analyze function returning
`None` increments `completed` but appends to neither `results` nor `errors`
(both `if result:` and `if error:` are falsy), so immediately after the
update `completed = 1` while `len(results) + len(errors) = 0`. -/
theorem c1_counterexample :
    ((Batch.process_file c1bp "job1" 0 c1analyze).bind
        (fun bp => List.lookup "job1" bp.jobs)).map
      (fun j => (j.completed, j.results.length, j.errors.length)) =
      some (1, 0, 0) ∧
    ¬ ((1 : ℕ) = 0 + 0) :=
  ⟨by decide, by decide⟩

/-- C1 (amended): for a job created over a non-empty file list, if every
update carries a truthy result or an exception with a non-empty message
(and each update targets a valid index, with at most one update per file),
then after every update `completed = len(results) + len(errors)` and
`status = "completed"` holds exactly when `completed = total`. -/
theorem c1_amended_progress_invariant (files : List Batch.FileInfo)
    (jid : String) (upds : List Batch.Upd)
    (hne : files ≠ [])
    (hval : ∀ u ∈ upds, u.idx < files.length)
    (hgood : ∀ u ∈ upds, Batch.goodOutcome u.outcome = true)
    (hlen : upds.length ≤ files.length) :
    ∀ k, k ≤ upds.length →
      ∃ bp' j',
        Batch.runUpdates jid (Batch.create_job ⟨[]⟩ jid files).1
          (upds.take k) = some bp' ∧
        List.lookup jid bp'.jobs = some j' ∧
        j'.completed = k ∧
        j'.completed = j'.results.length + j'.errors.length ∧
        (j'.status = "completed" ↔ j'.completed = j'.total) := by
  intro k hk
  have hl0 : List.lookup jid (Batch.create_job ⟨[]⟩ jid files).1.jobs =
      some { id := jid, files := files, total := files.length, completed := 0,
             status := "pending", results := [], errors := [],
             progress := none, endTimeSet := false } :=
    Batch.lookup_setJob_self _ _ _
  have hinv0 : Batch.Inv files 0
      { id := jid, files := files, total := files.length, completed := 0,
        status := "pending", results := [], errors := [],
        progress := none, endTimeSet := false } := by
    refine ⟨rfl, rfl, rfl, rfl, ?_⟩
    show ("pending" = "completed") ↔ ((0 : ℕ) = files.length)
    constructor
    · intro hcon
      exact absurd hcon (by decide)
    · intro hcon
      exact absurd (List.length_eq_zero.mp hcon.symm) hne
  obtain ⟨bp', j', hrun, hl', hinv'⟩ :=
    Batch.runUpdates_inv jid files (upds.take k) _ 0 _ hl0 hinv0
      (fun u hu => hval u (List.take_subset _ _ hu))
      (fun u hu => hgood u (List.take_subset _ _ hu))
      (by
        rw [List.length_take]
        have := min_le_right k upds.length
        omega)
  have hkl : (upds.take k).length = k := by
    rw [List.length_take]
    exact min_eq_left hk
  rw [hkl] at hinv'
  obtain ⟨_, _, hc, hsum, hstat⟩ := hinv'
  exact ⟨bp', j', hrun, hl', by simpa using hc, hsum, hstat⟩

/-- The files of the C1 witness job. -/
def c1files : List Batch.FileInfo := [.str "a.mp4", .str "b.mp4"]

/-- The updates of the C1 witness trace: one truthy result, one exception
with a non-empty message. -/
def c1upds : List Batch.Upd := [⟨0, .ok (.obj true 1)⟩, ⟨1, .error "boom"⟩]

/-- Witness for C1 (amended): both invariants hold after the full two-update
trace on the two-file job. -/
theorem c1_amended_progress_invariant_witness :
    ∃ bp' j',
      Batch.runUpdates "job1" (Batch.create_job ⟨[]⟩ "job1" c1files).1
        (c1upds.take 2) = some bp' ∧
      List.lookup "job1" bp'.jobs = some j' ∧
      j'.completed = 2 ∧
      j'.completed = j'.results.length + j'.errors.length ∧
      (j'.status = "completed" ↔ j'.completed = j'.total) :=
  c1_amended_progress_invariant c1files "job1" c1upds (by decide)
    (by decide) (by decide) (by decide) 2 (by decide)
